import Mathlib

/-!
Shallow embedding of the numeric core of the `polymarket-agents` repository:

* `agents/portfolio/allocator.py`   — `PortfolioAllocator` (Kelly sizing,
  position limits, capital allocation, portfolio metrics);
* `agents/portfolio/risk_manager.py` — `RiskManager` (drawdown tracking,
  risk metrics, position-reduction factor);
* `agents/stages/opportunity_analyzer.py` — `OpportunityAnalyzer`
  (edge / confidence / opportunity-score computation and ranking).

Python floats are modelled by `ℚ` (all the arithmetic the verified claims
touch is exact field arithmetic).  Python methods that can raise
`ZeroDivisionError` are modelled with `Option`, returning `none` exactly
where the Python code would divide by zero.  Irrational numpy primitives
(`np.sqrt`, `np.std`, `np.percentile`) are passed in as oracle parameters,
so every theorem below holds for *any* behaviour of those primitives.
Python `dict[str, float]` values are modelled as insertion-ordered
association lists (`List (String × ℚ)`), with assignment keeping an
existing key's position and appending a fresh key, exactly like CPython.
String-valued diagnostics built by f-string interpolation (log lines,
red/green flag texts) are not modelled; no claim refers to them.
-/

/-- Python dict assignment `d[k] = v`: an existing key keeps its position in
insertion order and gets the new value; a fresh key is appended. -/
def dictInsert (l : List (String × ℚ)) (k : String) (v : ℚ) :
    List (String × ℚ) :=
  if l.any (fun p => p.1 = k) then
    l.map (fun p => if p.1 = k then (k, v) else p)
  else
    l ++ [(k, v)]

/-- `sum(abs(amount) for amount in d.values())`. -/
def sumAbs (l : List (String × ℚ)) : ℚ :=
  (l.map (fun p => |p.2|)).sum

/-- `MarketOpportunity` dataclass of `allocator.py` (numeric fields). -/
structure MarketOpportunity where
  market_id : String
  market_question : String
  current_price : ℚ
  estimated_probability : ℚ
  confidence : ℤ
  edge : ℚ
  volatility : ℚ
  liquidity_score : ℚ
deriving Repr, DecidableEq

/-- One entry of `PortfolioAllocator.strategy_config`. -/
structure StrategyConfig where
  kelly_safety_factor : ℚ
  max_position_size : ℚ
  max_total_allocation : ℚ
  min_edge_threshold : ℚ
  min_confidence : ℤ
deriving Repr, DecidableEq

/-- The `'conservative'` strategy preset. -/
def conservativeConfig : StrategyConfig :=
  ⟨1/4, 3/20, 7/10, 1/10, 7⟩

/-- The `'balanced'` strategy preset. -/
def balancedConfig : StrategyConfig :=
  ⟨1/2, 1/5, 4/5, 1/20, 5⟩

/-- The `'aggressive'` strategy preset. -/
def aggressiveConfig : StrategyConfig :=
  ⟨3/4, 3/10, 9/10, 3/100, 4⟩

/-- `PortfolioAllocator._filter_opportunities`: keep an opportunity unless
`abs(edge) < min_edge_threshold`, or `confidence < min_confidence`, or
`liquidity_score < 0.5`. -/
def filterOpportunities (cfg : StrategyConfig)
    (opps : List MarketOpportunity) : List MarketOpportunity :=
  opps.filter (fun o =>
    decide (cfg.min_edge_threshold ≤ |o.edge| ∧
      cfg.min_confidence ≤ o.confidence ∧ (1/2 : ℚ) ≤ o.liquidity_score))

/-- Loop body of `PortfolioAllocator._calculate_kelly_positions`, folding the
`kelly_positions` dict over the opportunity list.  Degenerate prices
(`current_price <= 0 or current_price >= 1`) are skipped with `continue`;
otherwise `odds = 1/current_price`, the Kelly fraction is
`edge/(odds-1)` for a positive edge and `abs(edge)/(odds-1)` otherwise, the
safety factor and capital are applied, and the sign of the stored position
follows the sign test `edge > 0`. -/
def kellyAux (cfg : StrategyConfig) (total_capital : ℚ) :
    List (String × ℚ) → List MarketOpportunity → List (String × ℚ)
  | acc, [] => acc
  | acc, o :: rest =>
    if o.current_price ≤ 0 ∨ 1 ≤ o.current_price then
      kellyAux cfg total_capital acc rest
    else
      let odds : ℚ := 1 / o.current_price
      let kelly_fraction : ℚ :=
        if 0 < o.edge then o.edge / (odds - 1) else |o.edge| / (odds - 1)
      let safe_kelly : ℚ := kelly_fraction * cfg.kelly_safety_factor
      let position_size : ℚ := safe_kelly * total_capital
      let stored : ℚ := if 0 < o.edge then position_size else -position_size
      kellyAux cfg total_capital (dictInsert acc o.market_id stored) rest

/-- `PortfolioAllocator._calculate_kelly_positions`. -/
def kellyPositions (cfg : StrategyConfig) (total_capital : ℚ)
    (opps : List MarketOpportunity) : List (String × ℚ) :=
  kellyAux cfg total_capital [] opps

/-- First loop of `PortfolioAllocator._apply_position_limits`:
`capped = max(-max_position_value, min(max_position_value, position))` with
`max_position_value = max_position_size * total_capital`. -/
def cappedAllocations (cfg : StrategyConfig) (total_capital : ℚ)
    (positions : List (String × ℚ)) : List (String × ℚ) :=
  positions.map (fun p =>
    (p.1, max (-(cfg.max_position_size * total_capital))
      (min (cfg.max_position_size * total_capital) p.2)))

/-- `PortfolioAllocator._apply_position_limits`: cap each position, then if
the total of absolute amounts exceeds `max_total_allocation * total_capital`
scale every position by `max_total_allocation * total_capital / total`. -/
def applyPositionLimits (cfg : StrategyConfig) (total_capital : ℚ)
    (positions : List (String × ℚ)) : List (String × ℚ) :=
  let final := cappedAllocations cfg total_capital positions
  let total_allocated := sumAbs final
  let max_total := cfg.max_total_allocation * total_capital
  if max_total < total_allocated then
    final.map (fun p => (p.1, p.2 * (max_total / total_allocated)))
  else
    final

/-- Result of `PortfolioAllocator._calculate_portfolio_metrics` (the five
keys of the returned dict). -/
structure PortfolioMetrics where
  expected_value : ℚ
  variance : ℚ
  sharpe_ratio : ℚ
  max_position_weight : ℚ
  concentration_ratio : ℚ
deriving Repr, DecidableEq

/-- `PortfolioAllocator._calculate_portfolio_metrics`.  `sqrtQ` is an oracle
standing for `np.sqrt` (only reached when `variance > 0`).  The
`opp_lookup` dict is modelled by `find?` on the opportunity list (market
ids of distinct opportunities are distinct dict keys). -/
def portfolioMetrics (sqrtQ : ℚ → ℚ) (total_capital : ℚ)
    (allocations : List (String × ℚ)) (opps : List MarketOpportunity) :
    PortfolioMetrics :=
  if allocations = [] then ⟨0, 0, 0, 0, 0⟩
  else
    let expected_value : ℚ :=
      (allocations.map (fun p =>
        match opps.find? (fun o => o.market_id = p.1) with
        | none => 0
        | some o =>
          if 0 < p.2 then
            o.estimated_probability * (p.2 * (1 / o.current_price)) - p.2
          else
            (1 - o.estimated_probability) *
              (|p.2| * (1 / (1 - o.current_price))) - |p.2|)).sum
    let variance : ℚ :=
      (allocations.map (fun p =>
        match opps.find? (fun o => o.market_id = p.1) with
        | none => 0
        | some o => (p.2 * o.volatility) ^ 2)).sum
    let sharpe_ratio : ℚ :=
      if 0 < variance then expected_value / sqrtQ variance else 0
    let weights := allocations.map (fun p => |p.2| / total_capital)
    let max_position_weight : ℚ := weights.foldr max 0
    let concentration_ratio : ℚ := (weights.map (fun w => w ^ 2)).sum
    ⟨expected_value, variance, sharpe_ratio, max_position_weight,
      concentration_ratio⟩

/-- `AllocationResult` dataclass.  `risk_metrics` is `none` on the two early
returns (the Python code returns the empty dict there). -/
structure AllocationResult where
  allocations : List (String × ℚ)
  unallocated_capital : ℚ
  total_expected_value : ℚ
  portfolio_sharpe : ℚ
  risk_metrics : Option PortfolioMetrics
deriving Repr, DecidableEq

/-- `PortfolioAllocator.allocate_capital`. -/
def allocateCapital (sqrtQ : ℚ → ℚ) (cfg : StrategyConfig)
    (total_capital : ℚ) (opps : List MarketOpportunity) : AllocationResult :=
  if opps = [] then
    ⟨[], total_capital, 0, 0, none⟩
  else
    let filtered := filterOpportunities cfg opps
    if filtered = [] then
      ⟨[], total_capital, 0, 0, none⟩
    else
      let kelly := kellyPositions cfg total_capital filtered
      let final := applyPositionLimits cfg total_capital kelly
      let pm := portfolioMetrics sqrtQ total_capital final filtered
      ⟨final, total_capital - sumAbs final, pm.expected_value,
        pm.sharpe_ratio, some pm⟩

/-- Position size that the specification's words prescribe for betting
*against* the priced outcome: decimal odds `b = 1/(1-price)`, Kelly
fraction `f* = |edge|/(b-1)`, safety factor and capital applied, with a
negative sign for the against direction.  Stated from the spec only, to be
compared with the `kellyPositions` embedding of the code. -/
def specKellyAgainstPosition (cfg : StrategyConfig) (total_capital : ℚ)
    (o : MarketOpportunity) : ℚ :=
  -(|o.edge| / (1 / (1 - o.current_price) - 1) *
    cfg.kelly_safety_factor * total_capital)

/-- Relation between corresponding entries of two Kelly-position dicts
computed with safety factors `k1` and `k2`: same market key, and the two
values are the same base position scaled by `k1` and `k2` respectively. -/
def kellyScaleRel (k1 k2 : ℚ) (p q : String × ℚ) : Prop :=
  p.1 = q.1 ∧ ∃ c : ℚ, p.2 = k1 * c ∧ q.2 = k2 * c

/-- Concrete batch used to settle the safety-factor monotonicity claim:
five half-priced markets, one with edge `-1/2` and four with edge `-1/4`
(all pass the balanced strategy filter). -/
def monotonicityBatch : List MarketOpportunity :=
  [⟨"m1", "q", 1/2, 0, 8, -(1/2), 0, 1⟩,
   ⟨"m2", "q", 1/2, 1/4, 8, -(1/4), 0, 1⟩,
   ⟨"m3", "q", 1/2, 1/4, 8, -(1/4), 0, 1⟩,
   ⟨"m4", "q", 1/2, 1/4, 8, -(1/4), 0, 1⟩,
   ⟨"m5", "q", 1/2, 1/4, 8, -(1/4), 0, 1⟩]

/-! ### `agents/portfolio/risk_manager.py` -/

/-- Numeric constructor parameters of `RiskManager.__init__`. -/
structure RMConfig where
  max_position_size : ℚ
  max_total_allocation : ℚ
  max_drawdown_threshold : ℚ
  var_confidence : ℚ
deriving Repr, DecidableEq

/-- The default `RiskManager(...)` parameters
(`0.20, 0.80, 0.15, 0.95`). -/
def defaultRMConfig : RMConfig :=
  ⟨1/5, 4/5, 3/20, 19/20⟩

/-- One entry of `RiskManager.portfolio_history` (the numeric fields of the
snapshot dict; the timestamp plays no role in any computation). -/
structure Snapshot where
  value : ℚ
  daily_return : ℚ
  drawdown : ℚ
deriving Repr, DecidableEq

/-- The mutable state of a `RiskManager` instance. -/
structure RMState where
  portfolio_history : List Snapshot
  peak_value : ℚ
  current_drawdown : ℚ
  max_drawdown : ℚ
deriving Repr, DecidableEq

/-- State set up by `RiskManager.__init__`: empty history, peak 0,
drawdowns 0. -/
def initialRMState : RMState :=
  ⟨[], 0, 0, 0⟩

/-- `RiskManager.update_portfolio_value`.  Returns `none` exactly where the
Python code raises `ZeroDivisionError`: when a previous snapshot exists
with value 0 (daily-return division), or when the value does not exceed
the peak and the peak is 0 (drawdown division).  Otherwise appends the
snapshot and truncates the history to the last 252 entries. -/
def updatePortfolioValue (s : RMState) (current_value : ℚ) :
    Option RMState :=
  let mkNext : ℚ → ℚ → ℚ → ℚ → RMState := fun daily_return peak cur maxdd =>
    let h1 := s.portfolio_history ++ [⟨current_value, daily_return, cur⟩]
    ⟨if 252 < h1.length then h1.drop (h1.length - 252) else h1,
      peak, cur, maxdd⟩
  let withReturn : ℚ → Option RMState := fun daily_return =>
    if s.peak_value < current_value then
      some (mkNext daily_return current_value 0 s.max_drawdown)
    else if s.peak_value = 0 then none
    else
      let cur := (s.peak_value - current_value) / s.peak_value
      some (mkNext daily_return s.peak_value cur (max s.max_drawdown cur))
  match s.portfolio_history.getLast? with
  | none => withReturn 0
  | some prev =>
    if prev.value = 0 then none
    else withReturn ((current_value - prev.value) / prev.value)

/-- Successive `update_portfolio_value` calls on a value sequence,
propagating a raised exception as `none`. -/
def updateSeq (s : RMState) : List ℚ → Option RMState
  | [] => some s
  | v :: vs => (updatePortfolioValue s v).bind (fun s' => updateSeq s' vs)

/-- `RiskMetrics` dataclass of `risk_manager.py`. -/
structure RiskMetrics where
  portfolio_value : ℚ
  daily_return : ℚ
  cumulative_return : ℚ
  volatility : ℚ
  sharpe_ratio : ℚ
  max_drawdown : ℚ
  current_drawdown : ℚ
  var_95 : ℚ
  max_position_weight : ℚ
  concentration_ratio : ℚ
deriving Repr, DecidableEq

/-- The all-zero `RiskMetrics` returned when fewer than 2 snapshots are
stored. -/
def zeroRiskMetrics : RiskMetrics :=
  ⟨0, 0, 0, 0, 0, 0, 0, 0, 0, 0⟩

/-- `np.mean` (exact for rationals; only reached on a nonempty list). -/
def listMean (l : List ℚ) : ℚ :=
  l.sum / l.length

/-- `RiskManager.calculate_risk_metrics`.  The irrational numpy primitives
are oracle parameters: `std` stands for `np.std`, `sqrt252` for
`np.sqrt(252)`, `percentile` for `np.percentile`.  The method performs no
state writes, so it is embedded in state-passing style returning the state
unchanged; the metrics component is `none` exactly where the Python code
raises `ZeroDivisionError` (initial snapshot value 0 in
`cumulative_return`).  The `getD` defaults for first/last snapshots are
never exercised: the guarded branch has at least 2 snapshots. -/
def calculateRiskMetrics (std : List ℚ → ℚ) (sqrt252 : ℚ)
    (percentile : List ℚ → ℚ → ℚ) (cfg : RMConfig) (s : RMState) :
    Option RiskMetrics × RMState :=
  if s.portfolio_history.length < 2 then
    (some zeroRiskMetrics, s)
  else
    let current_value := ((s.portfolio_history.getLast?).getD ⟨0, 0, 0⟩).value
    let initial_value := ((s.portfolio_history.head?).getD ⟨0, 0, 0⟩).value
    let daily_returns :=
      (s.portfolio_history.drop 1).map (fun e => e.daily_return)
    if initial_value = 0 then (none, s)
    else
      let cumulative_return := (current_value - initial_value) / initial_value
      let volatility :=
        if 1 < daily_returns.length then std daily_returns * sqrt252 else 0
      let mean_return := listMean daily_returns * 252
      let sharpe_ratio := if 0 < volatility then mean_return / volatility else 0
      let var_95 :=
        if daily_returns ≠ [] then
          percentile daily_returns ((1 - cfg.var_confidence) * 100)
        else 0
      (some ⟨current_value, (daily_returns.getLast?).getD 0,
        cumulative_return, volatility, sharpe_ratio, s.max_drawdown,
        s.current_drawdown, var_95, 0, 0⟩, s)

/-- `RiskManager.should_reduce_positions`. -/
def shouldReducePositions (cfg : RMConfig) (m : RiskMetrics) : Bool :=
  (cfg.max_drawdown_threshold * (4/5) < m.current_drawdown) ||
    (m.sharpe_ratio < 0) || (1 < m.volatility)

/-- `RiskManager.get_position_reduction_factor`. -/
def getPositionReductionFactor (cfg : RMConfig) (m : RiskMetrics) : ℚ :=
  if !(shouldReducePositions cfg m) then 1
  else
    let drawdown_factor :=
      max (1/2) (1 - m.current_drawdown / cfg.max_drawdown_threshold)
    let sharpe_factor := max (3/10) (min 1 (m.sharpe_ratio / 1))
    let volatility_factor := max (1/2) (1 - m.volatility)
    let reduction_factor :=
      min drawdown_factor (min sharpe_factor volatility_factor)
    max (1/10) reduction_factor

/-- Reduction factor per the specification's words: for *every* metrics
input, the minimum of the three independently computed factors, floored at
0.10.  Stated from the spec only, to be compared with the
`getPositionReductionFactor` embedding of the code. -/
def specReductionFactor (cfg : RMConfig) (m : RiskMetrics) : ℚ :=
  max (1/10)
    (min (max (1/2) (1 - m.current_drawdown / cfg.max_drawdown_threshold))
      (min (max (3/10) (min 1 (m.sharpe_ratio / 1)))
        (max (1/2) (1 - m.volatility))))

/-! ### `agents/stages/opportunity_analyzer.py` -/

/-- `InformationQuality` enum of `agents/models.py`. -/
inductive InformationQuality where
  | low
  | medium
  | high
deriving Repr, DecidableEq

/-- `ConfidenceLevel` enum of `agents/models.py`. -/
inductive ConfidenceLevel where
  | low
  | medium
  | medium_high
  | high
deriving Repr, DecidableEq

/-- `Source` model (the fields the analyzer reads).  `host` stands for
`s.url.split("/")[2]`, the URL's host component used for diversity
counting; `credibility` is the 1–5 integer rating (as a rational, since it
enters float arithmetic). -/
structure Source where
  host : String
  credibility : ℚ
deriving Repr, DecidableEq

/-- `ProbabilityEstimate` model (the fields the analyzer reads). -/
structure ProbabilityEstimate where
  yes_probability : ℚ
  confidence_level : ConfidenceLevel
deriving Repr, DecidableEq

/-- `Tier2Research` model (the fields `_calculate_confidence_score` and
`analyze_opportunity` read). -/
structure Tier2Research where
  model_estimate : ProbabilityEstimate
  reasoning : String
  sources : List Source
  information_quality : InformationQuality
deriving Repr, DecidableEq

/-- `Market` model (the fields the analyzer's numeric path reads).
`outcome_price0` stands for `market.outcome_prices[0]`, the "YES" price. -/
structure Market where
  id : String
  question : String
  outcome_price0 : ℚ
  liquidity : ℚ
deriving Repr, DecidableEq

/-- `ConfidenceScore` model. -/
structure ConfidenceScore where
  source_quality : ℚ
  information_recency : ℚ
  consensus_level : ℚ
  base_rate_alignment : ℚ
  reasoning_clarity : ℚ
  overall_score : ℚ
deriving Repr, DecidableEq

/-- `OpportunityConfig` of `agents/config.py`. -/
structure OppConfig where
  min_edge_for_report : ℚ
  min_confidence_score : ℚ
  min_opportunity_score : ℚ
  source_quality_weight : ℚ
  information_recency_weight : ℚ
  consensus_weight : ℚ
  base_rate_weight : ℚ
  reasoning_clarity_weight : ℚ
deriving Repr, DecidableEq

/-- The `OpportunityConfig` defaults
(`0.05, 0.5, 0.03, 0.25, 0.20, 0.20, 0.20, 0.15`). -/
def defaultOppConfig : OppConfig :=
  ⟨1/20, 1/2, 3/100, 1/4, 1/5, 1/5, 1/5, 3/20⟩

/-- `OpportunityAnalyzer._calculate_confidence_score`.  Unique domains are
the distinct `host` values (`len(set(...))`). -/
def calculateConfidenceScore (cfg : OppConfig) (research : Tier2Research) :
    ConfidenceScore :=
  let avg_source_credibility : ℚ :=
    if research.sources ≠ [] then
      (research.sources.map (fun s => s.credibility)).sum /
        research.sources.length
    else 0
  let source_quality := avg_source_credibility / 5
  let information_recency : ℚ :=
    match research.information_quality with
    | .high => 1
    | .medium => 3/5
    | .low => 3/10
  let unique_domains : ℕ :=
    if research.sources ≠ [] then
      ((research.sources.map (fun s => s.host)).dedup).length
    else 0
  let consensus_level : ℚ := min 1 ((unique_domains : ℚ) / 5)
  let base_rate_alignment : ℚ :=
    match research.model_estimate.confidence_level with
    | .high => 1
    | .medium_high => 4/5
    | .medium => 3/5
    | .low => 2/5
  let reasoning_length := research.reasoning.length
  let reasoning_clarity : ℚ :=
    if 1000 < reasoning_length then 1
    else if 500 < reasoning_length then 4/5
    else if 200 < reasoning_length then 3/5
    else 2/5
  let overall_score :=
    source_quality * cfg.source_quality_weight +
      information_recency * cfg.information_recency_weight +
      consensus_level * cfg.consensus_weight +
      base_rate_alignment * cfg.base_rate_weight +
      reasoning_clarity * cfg.reasoning_clarity_weight
  ⟨source_quality, information_recency, consensus_level,
    base_rate_alignment, reasoning_clarity, overall_score⟩

/-- `OpportunityAnalyzer._generate_recommendation`: returns
`(action, outcome)`. -/
def generateRecommendation (model_prob market_prob edge : ℚ)
    (confidence : ConfidenceScore) : String × String :=
  if market_prob < model_prob then
    ((if 3/20 < edge ∧ 7/10 < confidence.overall_score then "Strong"
      else "Moderate") ++ " BUY", "YES")
  else
    ((if 3/20 < edge ∧ 7/10 < confidence.overall_score then "Strong"
      else "Moderate") ++ " BUY", "NO")

/-- `Opportunity` model: the numeric/scoring fields plus the
recommendation.  The back-references to the full market/research objects
and the string-valued flag lists are not modelled (no claim reads them). -/
structure Opportunity where
  market_id : String
  question : String
  model_probability : ℚ
  market_probability : ℚ
  edge : ℚ
  confidence_score : ConfidenceScore
  liquidity_factor : ℚ
  opportunity_score : ℚ
  recommended_action : String
  recommended_outcome : String
deriving Repr, DecidableEq

/-- `OpportunityAnalyzer.analyze_opportunity`: `edge` is
`abs(model_prob - market_prob)`; three threshold rejections return `none`;
otherwise the scored opportunity is built. -/
def analyzeOpportunity (cfg : OppConfig) (market : Market)
    (research : Tier2Research) : Option Opportunity :=
  let model_prob := research.model_estimate.yes_probability
  let market_prob := market.outcome_price0
  let edge := |model_prob - market_prob|
  if edge < cfg.min_edge_for_report then none
  else
    let confidence_score := calculateConfidenceScore cfg research
    if confidence_score.overall_score < cfg.min_confidence_score then none
    else
      let liquidity_factor := min 1 (market.liquidity / 10000)
      let opportunity_score :=
        edge * confidence_score.overall_score * liquidity_factor
      if opportunity_score < cfg.min_opportunity_score then none
      else
        let recommendation :=
          generateRecommendation model_prob market_prob edge confidence_score
        some ⟨market.id, market.question, model_prob, market_prob, edge,
          confidence_score, liquidity_factor, opportunity_score,
          recommendation.1, recommendation.2⟩

/-- `OpportunityAnalyzer.rank_opportunities`:
`sorted(opportunities, key=lambda o: o.opportunity_score, reverse=True)`.
Python's `sorted` with `reverse=True` is the *stable* descending sort by
the key; insertion sort with the relation below computes exactly that list
(descending scores, equal scores in input order). -/
def rankOpportunities (opportunities : List Opportunity) : List Opportunity :=
  opportunities.insertionSort
    (fun a b => b.opportunity_score ≤ a.opportunity_score)

/-- Concrete opportunity with score `1/2` and `|edge| = 1/10`, listed first
in the ranking counterexample. -/
def rankTieOppA : Opportunity :=
  ⟨"o1", "q", 0, 0, 1/10, ⟨0, 0, 0, 0, 0, 0⟩, 0, 1/2, "Moderate BUY", "YES"⟩

/-- Concrete opportunity with score `1/2` and `|edge| = 1/5`, listed second
in the ranking counterexample. -/
def rankTieOppB : Opportunity :=
  ⟨"o2", "q", 0, 0, 1/5, ⟨0, 0, 0, 0, 0, 0⟩, 0, 1/2, "Moderate BUY", "YES"⟩

/-! Helper: write `|a|` as an `if`, so that `norm_num` can evaluate the
embedding on concrete rational inputs. -/

lemma ratAbsIte (a : ℚ) : |a| = if 0 ≤ a then a else -a := by
  rcases le_or_lt 0 a with h | h
  · rw [abs_of_nonneg h, if_pos h]
  · rw [abs_of_neg h, if_neg (not_le.mpr h)]

lemma dictInsert_nil (k : String) (v : ℚ) : dictInsert [] k v = [(k, v)] := by
  simp [dictInsert]

lemma dictInsert_cons_ne (p : String × ℚ) (l : List (String × ℚ))
    (k : String) (v : ℚ) (h : p.1 ≠ k) :
    dictInsert (p :: l) k v = p :: dictInsert l k v := by
  unfold dictInsert
  by_cases hl : (l.any fun q => q.1 = k) = true
  · rw [if_pos, if_pos hl, List.map_cons, if_neg h]
    simp [List.any_cons, hl]
  · rw [if_neg, if_neg hl, List.cons_append]
    simp [List.any_cons, hl, h]

lemma sumAbs_mapMul (l : List (String × ℚ)) (c : ℚ) :
    sumAbs (l.map (fun p => (p.1, p.2 * c))) = |c| * sumAbs l := by
  induction l with
  | nil => simp [sumAbs]
  | cons a t ih =>
    simp only [sumAbs, List.map_cons, List.map_map, List.sum_cons] at ih ⊢
    rw [ih]
    simp [abs_mul]
    ring

lemma mem_cappedAllocations_bound (cfg : StrategyConfig) (C : ℚ)
    (positions : List (String × ℚ)) (hPC : 0 ≤ cfg.max_position_size * C) :
    ∀ p ∈ cappedAllocations cfg C positions,
      |p.2| ≤ cfg.max_position_size * C := by
  intro p hp
  rcases List.mem_map.mp hp with ⟨q, _, rfl⟩
  refine abs_le.mpr ⟨le_max_left _ _, max_le (by linarith) (min_le_left _ _)⟩

/-- C1: for every input batch of opportunities and every positive total
capital, the sum of the absolute allocated bet amounts plus the unallocated
capital returned by `allocate_capital` equals the total capital.  The
equality is exact in `ℚ`, which in particular implies the claimed `1e-6`
relative tolerance. -/
theorem allocate_capital_conserves_capital (sqrtQ : ℚ → ℚ)
    (cfg : StrategyConfig) (total_capital : ℚ)
    (opps : List MarketOpportunity) (hC : 0 < total_capital) :
    sumAbs (allocateCapital sqrtQ cfg total_capital opps).allocations +
      (allocateCapital sqrtQ cfg total_capital opps).unallocated_capital =
      total_capital := by
  by_cases h1 : opps = []
  · simp [allocateCapital, h1, sumAbs]
  · by_cases h2 : filterOpportunities cfg opps = []
    · simp [allocateCapital, h1, h2, sumAbs]
    · simp [allocateCapital, h1, h2]

/-- C1 witness: the conservation identity evaluated on a concrete
one-opportunity batch with capital 100 and the balanced strategy. -/
theorem allocate_capital_conserves_capital_witness :
    (0:ℚ) < 100 ∧
      sumAbs (allocateCapital (fun _ => 0) balancedConfig 100
          [⟨"m", "q", 2/5, 3/5, 8, 1/5, 0, 1⟩]).allocations +
        (allocateCapital (fun _ => 0) balancedConfig 100
          [⟨"m", "q", 2/5, 3/5, 8, 1/5, 0, 1⟩]).unallocated_capital = 100 :=
  ⟨by norm_num,
    allocate_capital_conserves_capital (fun _ => 0) balancedConfig 100
      [⟨"m", "q", 2/5, 3/5, 8, 1/5, 0, 1⟩] (by norm_num)⟩

/-- C2: after `_apply_position_limits`, every final position is bounded by
`max_position_size * total_capital` in absolute value, and the sum of
absolute amounts is bounded by `max_total_allocation * total_capital`.
Both bounds are exact in `ℚ` (so they hold a fortiori with the claimed
`+ ε` slack). -/
theorem apply_position_limits_bounds (cfg : StrategyConfig)
    (total_capital : ℚ) (positions : List (String × ℚ))
    (hC : 0 < total_capital) (hP : 0 ≤ cfg.max_position_size)
    (hM : 0 ≤ cfg.max_total_allocation) :
    (∀ p ∈ applyPositionLimits cfg total_capital positions,
        |p.2| ≤ cfg.max_position_size * total_capital) ∧
      sumAbs (applyPositionLimits cfg total_capital positions) ≤
        cfg.max_total_allocation * total_capital := by
  have hPC : 0 ≤ cfg.max_position_size * total_capital :=
    mul_nonneg hP hC.le
  have hMC : 0 ≤ cfg.max_total_allocation * total_capital :=
    mul_nonneg hM hC.le
  have hcap := mem_cappedAllocations_bound cfg total_capital positions hPC
  unfold applyPositionLimits
  set final := cappedAllocations cfg total_capital positions with hfinal
  set T := sumAbs final with hT
  set M := cfg.max_total_allocation * total_capital with hMdef
  by_cases hlt : M < T
  · have hTpos : 0 < T := lt_of_le_of_lt hMC hlt
    have hσ0 : 0 ≤ M / T := div_nonneg hMC hTpos.le
    have hσ1 : M / T ≤ 1 := (div_le_one hTpos).mpr hlt.le
    rw [if_pos hlt]
    constructor
    · intro p hp
      rcases List.mem_map.mp hp with ⟨q, hq, rfl⟩
      have h1 : |q.2| ≤ cfg.max_position_size * total_capital := hcap q hq
      calc |q.2 * (M / T)| = |q.2| * |M / T| := abs_mul _ _
        _ ≤ |q.2| * 1 := by
            have := abs_of_nonneg hσ0
            nlinarith [abs_nonneg q.2]
        _ = |q.2| := mul_one _
        _ ≤ cfg.max_position_size * total_capital := h1
    · rw [sumAbs_mapMul, abs_of_nonneg hσ0, ← hT, div_mul_cancel₀ M hTpos.ne']
  · rw [if_neg hlt]
    exact ⟨hcap, not_lt.mp hlt⟩

/-- C3 counterexample: for the opportunity `price = 4/5`,
`edge = -1/5` (probability 3/5) under the balanced strategy with capital
100, the code sizes the position with odds `1/price` and produces `-40`,
while the spec's `b = 1/(1-price)` formula gives `-5/2`.  The claim that
the sizer uses `b = 1/(1-price)` for a negative edge is therefore false. -/
theorem kelly_against_odds_counterexample :
    kellyPositions balancedConfig 100
        [⟨"m", "q", 4/5, 3/5, 8, -(1/5), 0, 1⟩] = [("m", -40)] ∧
      specKellyAgainstPosition balancedConfig 100
        ⟨"m", "q", 4/5, 3/5, 8, -(1/5), 0, 1⟩ = -(5/2) ∧
      (-40 : ℚ) ≠ -(5/2) := by
  norm_num [kellyPositions, kellyAux, dictInsert, balancedConfig,
    specKellyAgainstPosition, ratAbsIte]

/-- C3 amended: for a negative-edge opportunity with `0 < price < 1`, the
sizer uses the *same* decimal odds `b = 1/price` as for the positive
direction, takes `f* = |edge|/(b-1)`, applies the safety factor and the
capital, and stores the result with a negative sign (matching the direction
of the edge); an opportunity with `price ≤ 0` or `price ≥ 1` is skipped
rather than sized. -/
theorem kelly_negative_edge_sizing (cfg : StrategyConfig) (total_capital : ℚ)
    (o : MarketOpportunity) :
    (0 < o.current_price → o.current_price < 1 → o.edge < 0 →
      0 ≤ cfg.kelly_safety_factor → 0 ≤ total_capital →
      kellyPositions cfg total_capital [o] =
          [(o.market_id, -(|o.edge| / (1 / o.current_price - 1) *
            cfg.kelly_safety_factor * total_capital))] ∧
        -(|o.edge| / (1 / o.current_price - 1) *
          cfg.kelly_safety_factor * total_capital) ≤ 0) ∧
    (o.current_price ≤ 0 ∨ 1 ≤ o.current_price →
      kellyPositions cfg total_capital [o] = []) := by
  constructor
  · intro h0 h1 he hk hC
    have hcond : ¬(o.current_price ≤ 0 ∨ 1 ≤ o.current_price) := by
      push_neg
      exact ⟨h0, h1⟩
    have hne : ¬(0 < o.edge) := not_lt.mpr he.le
    have hodds : 0 < 1 / o.current_price - 1 := by
      have : 1 < 1 / o.current_price := (one_lt_div h0).mpr h1
      linarith
    have hval : 0 ≤ |o.edge| / (1 / o.current_price - 1) *
        cfg.kelly_safety_factor * total_capital :=
      mul_nonneg (mul_nonneg (div_nonneg (abs_nonneg _) hodds.le) hk) hC
    refine ⟨?_, by linarith⟩
    simp [kellyPositions, kellyAux, hcond, hne, dictInsert]
  · intro h
    simp [kellyPositions, kellyAux, h]

/-- C3 witness: the amended sizing rule evaluated at the concrete
negative-edge opportunity of the counterexample, plus the degenerate-price
skip at `price = 0`. -/
theorem kelly_negative_edge_sizing_witness :
    ((0:ℚ) < 4/5 ∧ (4/5:ℚ) < 1 ∧ (-(1/5):ℚ) < 0 ∧
      (0:ℚ) ≤ balancedConfig.kelly_safety_factor ∧ (0:ℚ) ≤ 100) ∧
    (kellyPositions balancedConfig 100
        [⟨"m", "q", 4/5, 3/5, 8, -(1/5), 0, 1⟩] =
          [("m", -(|(-(1/5) : ℚ)| / (1 / (4/5) - 1) *
            balancedConfig.kelly_safety_factor * 100))] ∧
      -(|(-(1/5) : ℚ)| / (1 / (4/5) - 1) *
        balancedConfig.kelly_safety_factor * 100) ≤ 0) ∧
    kellyPositions balancedConfig 100
      [⟨"d", "q", 0, 1/2, 8, 1/2, 0, 1⟩] = [] :=
  ⟨⟨by norm_num, by norm_num, by norm_num,
      by norm_num [balancedConfig], by norm_num⟩,
    (kelly_negative_edge_sizing balancedConfig 100
        ⟨"m", "q", 4/5, 3/5, 8, -(1/5), 0, 1⟩).1
      (by norm_num) (by norm_num) (by norm_num)
      (by norm_num [balancedConfig]) (by norm_num),
    (kelly_negative_edge_sizing balancedConfig 100
        ⟨"d", "q", 0, 1/2, 8, 1/2, 0, 1⟩).2 (Or.inl (by norm_num))⟩

/-- C2 witness: the bounds evaluated on a concrete raw-position dict with
capital 100 and the balanced strategy limits. -/
theorem apply_position_limits_bounds_witness :
    (0:ℚ) < 100 ∧ 0 ≤ balancedConfig.max_position_size ∧
      0 ≤ balancedConfig.max_total_allocation ∧
      ((∀ p ∈ applyPositionLimits balancedConfig 100 [("a", 50), ("b", -60)],
          |p.2| ≤ balancedConfig.max_position_size * 100) ∧
        sumAbs (applyPositionLimits balancedConfig 100 [("a", 50), ("b", -60)]) ≤
          balancedConfig.max_total_allocation * 100) :=
  ⟨by norm_num, by norm_num [balancedConfig], by norm_num [balancedConfig],
    apply_position_limits_bounds balancedConfig 100 [("a", 50), ("b", -60)]
      (by norm_num) (by norm_num [balancedConfig])
      (by norm_num [balancedConfig])⟩

lemma absClampEq (P z : ℚ) (hP : 0 ≤ P) :
    |max (-P) (min P z)| = min P |z| := by
  rcases le_or_lt 0 z with hz | hz
  · have h1 : 0 ≤ min P z := le_min hP hz
    have h2 : -P ≤ min P z := by linarith [neg_nonpos_of_nonneg hP]
    rw [max_eq_right h2, abs_of_nonneg h1, abs_of_nonneg hz]
  · have h1 : min P z = z := min_eq_right (by linarith)
    rw [h1, abs_of_neg hz]
    rcases le_or_lt z (-P) with h2 | h2
    · rw [max_eq_left h2, abs_neg, abs_of_nonneg hP,
        min_eq_left (by linarith)]
    · rw [max_eq_right h2.le, abs_of_neg hz, min_eq_right (by linarith)]

lemma forall₂_keys_any {R : (String × ℚ) → (String × ℚ) → Prop}
    (hkey : ∀ p q, R p q → p.1 = q.1)
    {l1 l2 : List (String × ℚ)} (h : List.Forall₂ R l1 l2) (k : String) :
    (l1.any fun p => p.1 = k) = (l2.any fun p => p.1 = k) := by
  induction h with
  | nil => rfl
  | cons hpq htail ih =>
    simp only [List.any_cons, ih]
    rw [hkey _ _ hpq]

lemma forall₂_dictInsert {R : (String × ℚ) → (String × ℚ) → Prop}
    (hkey : ∀ p q, R p q → p.1 = q.1)
    {l1 l2 : List (String × ℚ)} (h : List.Forall₂ R l1 l2)
    (k : String) (v1 v2 : ℚ) (hv : R (k, v1) (k, v2)) :
    List.Forall₂ R (dictInsert l1 k v1) (dictInsert l2 k v2) := by
  unfold dictInsert
  rw [forall₂_keys_any hkey h k]
  by_cases hb : (l2.any fun p => p.1 = k) = true
  · rw [if_pos hb, if_pos hb]
    clear hb
    induction h with
    | nil => exact List.Forall₂.nil
    | @cons a b t1 t2 hpq htail ih =>
      simp only [List.map_cons]
      refine List.Forall₂.cons ?_ ih
      have hk := hkey _ _ hpq
      by_cases hpk : a.1 = k
      · rw [if_pos hpk, if_pos (hk ▸ hpk)]
        exact hv
      · rw [if_neg hpk, if_neg (fun hbk => hpk (hk.trans hbk))]
        exact hpq
  · rw [if_neg hb, if_neg hb]
    exact List.rel_append h (List.Forall₂.cons hv List.Forall₂.nil)

lemma kellyAux_scaleRel (cfgBase : StrategyConfig) (k1 k2 total_capital : ℚ)
    (opps : List MarketOpportunity) :
    ∀ acc1 acc2, List.Forall₂ (kellyScaleRel k1 k2) acc1 acc2 →
      List.Forall₂ (kellyScaleRel k1 k2)
        (kellyAux {cfgBase with kelly_safety_factor := k1} total_capital
          acc1 opps)
        (kellyAux {cfgBase with kelly_safety_factor := k2} total_capital
          acc2 opps) := by
  induction opps with
  | nil => exact fun _ _ h => h
  | cons o rest ih =>
    intro acc1 acc2 h
    by_cases hdeg : o.current_price ≤ 0 ∨ 1 ≤ o.current_price
    · simp only [kellyAux, if_pos hdeg]
      exact ih _ _ h
    · simp only [kellyAux, if_neg hdeg]
      apply ih
      apply forall₂_dictInsert (fun p q hpq => hpq.1) h
      refine ⟨rfl, ?_⟩
      by_cases he : 0 < o.edge
      · refine ⟨o.edge / (1 / o.current_price - 1) * total_capital, ?_, ?_⟩ <;>
          · simp only [if_pos he]
            ring
      · refine ⟨-(|o.edge| / (1 / o.current_price - 1) * total_capital),
          ?_, ?_⟩ <;>
          · simp only [if_neg he]
            ring

/-- C4 counterexample: with the balanced limit parameters
(`max_position_size = 0.20`, `max_total_allocation = 0.80`), capital 100 and
the concrete five-market batch `monotonicityBatch`, raising the safety
factor from `2/5` to `7/10` makes market `m1`'s final amount *shrink* from
`|-20| = 20` to `|-160/9| ≈ 17.78`: the larger factor saturates the total
allocation cap, and the proportional rescaling then cuts the
already-capped position.  The end-to-end monotonicity claim is false. -/
theorem safety_factor_monotonicity_counterexample :
    (2/5 : ℚ) < 7/10 ∧
      (allocateCapital (fun _ => 0)
        {balancedConfig with kelly_safety_factor := 2/5} 100
        monotonicityBatch).allocations =
        [("m1", -20), ("m2", -10), ("m3", -10), ("m4", -10), ("m5", -10)] ∧
      (allocateCapital (fun _ => 0)
        {balancedConfig with kelly_safety_factor := 7/10} 100
        monotonicityBatch).allocations =
        [("m1", -(160/9)), ("m2", -(140/9)), ("m3", -(140/9)),
          ("m4", -(140/9)), ("m5", -(140/9))] ∧
      ¬(|(-20 : ℚ)| ≤ |(-(160/9) : ℚ)|) := by
  have hf1 : filterOpportunities
      {balancedConfig with kelly_safety_factor := 2/5} monotonicityBatch =
      monotonicityBatch := by
    norm_num [filterOpportunities, monotonicityBatch, balancedConfig,
      ratAbsIte]
  have hf2 : filterOpportunities
      {balancedConfig with kelly_safety_factor := 7/10} monotonicityBatch =
      monotonicityBatch := by
    norm_num [filterOpportunities, monotonicityBatch, balancedConfig,
      ratAbsIte]
  have hk1 : kellyPositions
      {balancedConfig with kelly_safety_factor := 2/5} 100
      monotonicityBatch =
      [("m1", -20), ("m2", -10), ("m3", -10), ("m4", -10), ("m5", -10)] := by
    norm_num [kellyPositions, kellyAux, monotonicityBatch, balancedConfig,
      ratAbsIte]
    simp [dictInsert_nil, dictInsert_cons_ne]
  have hk2 : kellyPositions
      {balancedConfig with kelly_safety_factor := 7/10} 100
      monotonicityBatch =
      [("m1", -35), ("m2", -(35/2)), ("m3", -(35/2)), ("m4", -(35/2)),
        ("m5", -(35/2))] := by
    norm_num [kellyPositions, kellyAux, monotonicityBatch, balancedConfig,
      ratAbsIte]
    simp [dictInsert_nil, dictInsert_cons_ne]
  have ha1 : applyPositionLimits
      {balancedConfig with kelly_safety_factor := 2/5} 100
      [("m1", (-20 : ℚ)), ("m2", -10), ("m3", -10), ("m4", -10),
        ("m5", -10)] =
      [("m1", -20), ("m2", -10), ("m3", -10), ("m4", -10), ("m5", -10)] := by
    norm_num [applyPositionLimits, cappedAllocations, sumAbs, balancedConfig,
      ratAbsIte]
  have ha2 : applyPositionLimits
      {balancedConfig with kelly_safety_factor := 7/10} 100
      [("m1", (-35 : ℚ)), ("m2", -(35/2)), ("m3", -(35/2)), ("m4", -(35/2)),
        ("m5", -(35/2))] =
      [("m1", -(160/9)), ("m2", -(140/9)), ("m3", -(140/9)),
        ("m4", -(140/9)), ("m5", -(140/9))] := by
    norm_num [applyPositionLimits, cappedAllocations, sumAbs, balancedConfig,
      ratAbsIte]
  refine ⟨by norm_num, ?_, ?_, by rw [ratAbsIte, ratAbsIte]; norm_num⟩
  · rw [allocateCapital, if_neg (by simp [monotonicityBatch]), hf1]
    rw [if_neg (by simp [monotonicityBatch]), hk1]
    simp only [ha1]
  · rw [allocateCapital, if_neg (by simp [monotonicityBatch]), hf2]
    rw [if_neg (by simp [monotonicityBatch]), hk2]
    simp only [ha2]

/-- C4 amended: through Kelly sizing and the individual position caps (the
pipeline *before* the proportional total-allocation rescaling), a smaller
safety factor never produces a larger absolute amount for any market: the
two runs produce dicts with identical keys in identical order, and the
`k1` amount is dominated entrywise by the `k2` amount.  (After the
total-allocation rescaling the property fails, per the counterexample.) -/
theorem capped_positions_monotone_in_safety_factor
    (cfgBase : StrategyConfig) (k1 k2 total_capital : ℚ)
    (opps : List MarketOpportunity)
    (h0 : 0 ≤ k1) (h12 : k1 ≤ k2) (hP : 0 ≤ cfgBase.max_position_size)
    (hC : 0 ≤ total_capital) :
    List.Forall₂ (fun p q => p.1 = q.1 ∧ |p.2| ≤ |q.2|)
      (cappedAllocations {cfgBase with kelly_safety_factor := k1}
        total_capital
        (kellyPositions {cfgBase with kelly_safety_factor := k1}
          total_capital opps))
      (cappedAllocations {cfgBase with kelly_safety_factor := k2}
        total_capital
        (kellyPositions {cfgBase with kelly_safety_factor := k2}
          total_capital opps)) := by
  have hrel := kellyAux_scaleRel cfgBase k1 k2 total_capital opps [] []
    List.Forall₂.nil
  unfold cappedAllocations
  rw [List.forall₂_map_right_iff, List.forall₂_map_left_iff]
  refine hrel.imp ?_
  rintro p q ⟨hkey, c, hp, hq⟩
  have hPC : 0 ≤ cfgBase.max_position_size * total_capital :=
    mul_nonneg hP hC
  refine ⟨hkey, ?_⟩
  simp only [hp, hq]
  rw [absClampEq _ _ hPC, absClampEq _ _ hPC]
  refine min_le_min (le_refl _) ?_
  rw [abs_mul, abs_mul, abs_of_nonneg h0, abs_of_nonneg (h0.trans h12)]
  exact mul_le_mul_of_nonneg_right h12 (abs_nonneg c)

/-- C4 witness: the amended monotonicity applied at the concrete batch of
the counterexample with safety factors `2/5 ≤ 7/10`. -/
theorem capped_positions_monotone_witness :
    (0:ℚ) ≤ 2/5 ∧ (2/5:ℚ) ≤ 7/10 ∧
      0 ≤ balancedConfig.max_position_size ∧ (0:ℚ) ≤ 100 ∧
      List.Forall₂ (fun p q => p.1 = q.1 ∧ |p.2| ≤ |q.2|)
        (cappedAllocations {balancedConfig with kelly_safety_factor := 2/5}
          100
          (kellyPositions {balancedConfig with kelly_safety_factor := 2/5}
            100 monotonicityBatch))
        (cappedAllocations {balancedConfig with kelly_safety_factor := 7/10}
          100
          (kellyPositions {balancedConfig with kelly_safety_factor := 7/10}
            100 monotonicityBatch)) :=
  ⟨by norm_num, by norm_num, by norm_num [balancedConfig], by norm_num,
    capped_positions_monotone_in_safety_factor balancedConfig (2/5) (7/10)
      100 monotonicityBatch (by norm_num) (by norm_num)
      (by norm_num [balancedConfig]) (by norm_num)⟩

/-- C5: starting from the fresh state (peak 0, drawdowns 0), applying
`update_portfolio_value` on the sequence `[100, 110, 90, 95]` yields
`peak_value = 110`, `current_drawdown = 3/22 = 15/110 ≈ 0.1364` and
`max_drawdown = 2/11 = 20/110 ≈ 0.1818`, each step following the
peak/drawdown update rule (and raising no exception). -/
theorem drawdown_sequence_correct :
    (updateSeq initialRMState [100, 110, 90, 95]).map
      (fun s => (s.peak_value, s.current_drawdown, s.max_drawdown)) =
      some (110, 3/22, 2/11) := by
  norm_num [updateSeq, updatePortfolioValue, initialRMState, Option.bind,
    List.getLast?_concat]

/-- C9: whenever fewer than 2 snapshots are stored,
`calculate_risk_metrics` returns the all-zero metrics object without
raising, and leaves the stored state unchanged — for any behaviour of the
numpy oracles. -/
theorem insufficient_history_zeroed_metrics (std : List ℚ → ℚ)
    (sqrt252 : ℚ) (percentile : List ℚ → ℚ → ℚ) (cfg : RMConfig)
    (s : RMState) (h : s.portfolio_history.length < 2) :
    calculateRiskMetrics std sqrt252 percentile cfg s =
      (some zeroRiskMetrics, s) := by
  unfold calculateRiskMetrics
  rw [if_pos h]

/-- C9 witness: the zeroed-metrics return evaluated on the fresh state with
arbitrary concrete oracles. -/
theorem insufficient_history_zeroed_metrics_witness :
    initialRMState.portfolio_history.length < 2 ∧
      calculateRiskMetrics (fun _ => 0) 0 (fun _ _ => 0) defaultRMConfig
        initialRMState = (some zeroRiskMetrics, initialRMState) :=
  ⟨by norm_num [initialRMState],
    insufficient_history_zeroed_metrics (fun _ => 0) 0 (fun _ _ => 0)
      defaultRMConfig initialRMState (by norm_num [initialRMState])⟩

/-- C10: on the fresh state (`peak_value = 0`), updating with any value
`≤ 0` takes the drawdown branch and divides by the zero peak, so the call
raises `ZeroDivisionError` (modelled as `none`) instead of recording the
snapshot. -/
theorem update_on_fresh_state_division_by_zero (v : ℚ) (hv : v ≤ 0) :
    updatePortfolioValue initialRMState v = none := by
  simp [updatePortfolioValue, initialRMState, not_lt.mpr hv]

/-- C10 witness: the division-by-zero raise evaluated at the first value
exactly 0. -/
theorem update_on_fresh_state_division_by_zero_witness :
    (0 : ℚ) ≤ 0 ∧ updatePortfolioValue initialRMState 0 = none :=
  ⟨le_refl 0, update_on_fresh_state_division_by_zero 0 (le_refl 0)⟩

/-- C8 counterexample: for the metrics with `current_drawdown = 0`,
`sharpe_ratio = 1/5`, `volatility = 3/5`, `should_reduce_positions` is
false, so the code returns `1`, while the minimum of the three factors
floored at 0.10 is `3/10`.  The claim that the function returns that
minimum for *every* metrics input is therefore false. -/
theorem reduction_factor_counterexample :
    getPositionReductionFactor defaultRMConfig
        ⟨0, 0, 0, 3/5, 1/5, 0, 0, 0, 0, 0⟩ = 1 ∧
      specReductionFactor defaultRMConfig
        ⟨0, 0, 0, 3/5, 1/5, 0, 0, 0, 0, 0⟩ = 3/10 ∧
      (1 : ℚ) ≠ 3/10 := by
  norm_num [getPositionReductionFactor, specReductionFactor,
    shouldReducePositions, defaultRMConfig, max_def, min_def]

/-- C8 amended: `get_position_reduction_factor` returns the minimum of the
three factors floored at 0.10 exactly when `should_reduce_positions` is
true, and returns 1 otherwise; in every case the result is at least 0.10
(never a cutoff to 0). -/
theorem reduction_factor_characterization (m : RiskMetrics) :
    getPositionReductionFactor defaultRMConfig m =
        (if shouldReducePositions defaultRMConfig m then
          specReductionFactor defaultRMConfig m
        else 1) ∧
      1/10 ≤ getPositionReductionFactor defaultRMConfig m := by
  by_cases h : shouldReducePositions defaultRMConfig m
  · refine ⟨by simp [getPositionReductionFactor, specReductionFactor, h], ?_⟩
    simp only [getPositionReductionFactor, h, Bool.not_true, Bool.false_eq_true,
      if_false]
    exact le_max_left _ _
  · refine ⟨by simp [getPositionReductionFactor, h], ?_⟩
    simp [getPositionReductionFactor, h]
    norm_num

/-- C6 counterexample: for a market priced at `9/10` and a forecast of
`3/10` (three credible sources, high quality, passing every threshold),
the analyzer reports `edge = 3/5 = |3/10 - 9/10|`, not the signed
difference `3/10 - 9/10 = -3/5`.  The claim that the edge is signed (and
negative when the forecast is below the price) is therefore false. -/
theorem edge_absolute_value_counterexample :
    (analyzeOpportunity defaultOppConfig ⟨"mkt", "q", 9/10, 10000⟩
        ⟨⟨3/10, .high⟩, "r", [⟨"a", 5⟩, ⟨"b", 5⟩, ⟨"c", 5⟩], .high⟩).map
      (fun o => o.edge) = some (3/5) ∧
      (3/5 : ℚ) ≠ 3/10 - 9/10 := by
  have hd : ((["a", "b", "c"] : List String).dedup).length = 3 := by decide
  have hr : ("r" : String).length = 1 := rfl
  have hc : calculateConfidenceScore defaultOppConfig
      ⟨⟨3/10, .high⟩, "r", [⟨"a", 5⟩, ⟨"b", 5⟩, ⟨"c", 5⟩], .high⟩ =
      ⟨1, 1, 3/5, 1, 2/5, 83/100⟩ := by
    have hne : ([⟨"a", 5⟩, ⟨"b", 5⟩, ⟨"c", 5⟩] : List Source) ≠ [] := by
      simp
    norm_num [calculateConfidenceScore, defaultOppConfig, hd, hr, hne]
  have happ : ("Strong" ++ " BUY" : String) = "Strong BUY" := rfl
  constructor
  · unfold analyzeOpportunity
    rw [hc]
    norm_num [generateRecommendation, defaultOppConfig, ratAbsIte, happ]
  · norm_num

/-- C6 amended: whenever `analyze_opportunity` returns an opportunity, its
`edge` is the *absolute* difference `|probability - price|` (hence never
negative); the direction of the mispricing is carried by the recommended
outcome (`YES` exactly when the forecast exceeds the price), not by the
edge's sign. -/
theorem analyzer_edge_is_absolute_difference (cfg : OppConfig)
    (market : Market) (research : Tier2Research) (opp : Opportunity)
    (h : analyzeOpportunity cfg market research = some opp) :
    opp.edge =
        |research.model_estimate.yes_probability - market.outcome_price0| ∧
      0 ≤ opp.edge ∧
      opp.recommended_outcome =
        (if market.outcome_price0 < research.model_estimate.yes_probability
          then "YES" else "NO") := by
  unfold analyzeOpportunity at h
  dsimp only at h
  split_ifs at h with h1 h2 h3
  obtain rfl := (Option.some.inj h).symm
  refine ⟨rfl, abs_nonneg _, ?_⟩
  show (generateRecommendation _ _ _ _).2 = _
  unfold generateRecommendation
  by_cases hdir :
      market.outcome_price0 < research.model_estimate.yes_probability
  · rw [if_pos hdir, if_pos hdir]
  · rw [if_neg hdir, if_neg hdir]

/-- C6 witness: the amended statement evaluated on the concrete market and
research of the counterexample (the analyzer returns the fully evaluated
opportunity, and its edge is the absolute difference). -/
theorem analyzer_edge_witness :
    analyzeOpportunity defaultOppConfig ⟨"mkt", "q", 9/10, 10000⟩
        ⟨⟨3/10, .high⟩, "r", [⟨"a", 5⟩, ⟨"b", 5⟩, ⟨"c", 5⟩], .high⟩ =
      some ⟨"mkt", "q", 3/10, 9/10, 3/5, ⟨1, 1, 3/5, 1, 2/5, 83/100⟩, 1,
        249/500, "Strong BUY", "NO"⟩ ∧
      ((⟨"mkt", "q", 3/10, 9/10, 3/5, ⟨1, 1, 3/5, 1, 2/5, 83/100⟩, 1,
          249/500, "Strong BUY", "NO"⟩ : Opportunity).edge =
          |(3/10 : ℚ) - 9/10| ∧
        0 ≤ (⟨"mkt", "q", 3/10, 9/10, 3/5, ⟨1, 1, 3/5, 1, 2/5, 83/100⟩, 1,
          249/500, "Strong BUY", "NO"⟩ : Opportunity).edge ∧
        (⟨"mkt", "q", 3/10, 9/10, 3/5, ⟨1, 1, 3/5, 1, 2/5, 83/100⟩, 1,
          249/500, "Strong BUY", "NO"⟩ : Opportunity).recommended_outcome =
          (if (9/10 : ℚ) < 3/10 then "YES" else "NO")) := by
  have hd : ((["a", "b", "c"] : List String).dedup).length = 3 := by decide
  have hr : ("r" : String).length = 1 := rfl
  have hc : calculateConfidenceScore defaultOppConfig
      ⟨⟨3/10, .high⟩, "r", [⟨"a", 5⟩, ⟨"b", 5⟩, ⟨"c", 5⟩], .high⟩ =
      ⟨1, 1, 3/5, 1, 2/5, 83/100⟩ := by
    have hne : ([⟨"a", 5⟩, ⟨"b", 5⟩, ⟨"c", 5⟩] : List Source) ≠ [] := by
      simp
    norm_num [calculateConfidenceScore, defaultOppConfig, hd, hr, hne]
  have happ : ("Strong" ++ " BUY" : String) = "Strong BUY" := rfl
  have h : analyzeOpportunity defaultOppConfig ⟨"mkt", "q", 9/10, 10000⟩
      ⟨⟨3/10, .high⟩, "r", [⟨"a", 5⟩, ⟨"b", 5⟩, ⟨"c", 5⟩], .high⟩ =
      some ⟨"mkt", "q", 3/10, 9/10, 3/5, ⟨1, 1, 3/5, 1, 2/5, 83/100⟩, 1,
        249/500, "Strong BUY", "NO"⟩ := by
    unfold analyzeOpportunity
    rw [hc]
    norm_num [generateRecommendation, defaultOppConfig, ratAbsIte, happ]
  exact ⟨h, analyzer_edge_is_absolute_difference defaultOppConfig
    ⟨"mkt", "q", 9/10, 10000⟩
    ⟨⟨3/10, .high⟩, "r", [⟨"a", 5⟩, ⟨"b", 5⟩, ⟨"c", 5⟩], .high⟩ _ h⟩

lemma filter_orderedInsert_score (c : ℚ) (x : Opportunity)
    (l : List Opportunity) :
    (l.orderedInsert (fun a b => b.opportunity_score ≤ a.opportunity_score)
        x).filter (fun o => o.opportunity_score = c) =
      if x.opportunity_score = c then
        x :: l.filter (fun o => o.opportunity_score = c)
      else l.filter (fun o => o.opportunity_score = c) := by
  induction l with
  | nil =>
    by_cases hx : x.opportunity_score = c <;>
      simp [List.orderedInsert, List.filter_cons, hx]
  | cons y ys ih =>
    by_cases hr : y.opportunity_score ≤ x.opportunity_score
    · rw [List.orderedInsert_of_le _ ys hr]
      by_cases hx : x.opportunity_score = c <;>
        simp [List.filter_cons, hx]
    · have hstep :
          (y :: ys).orderedInsert
              (fun a b => b.opportunity_score ≤ a.opportunity_score) x =
            y :: ys.orderedInsert
              (fun a b => b.opportunity_score ≤ a.opportunity_score) x := by
        simp [List.orderedInsert, hr]
      rw [hstep]
      by_cases hx : x.opportunity_score = c
      · have hy : ¬(y.opportunity_score = c) := by
          intro hyc
          exact hr (by rw [hyc, ← hx])
        simp [List.filter_cons, hx, hy, ih]
      · simp [List.filter_cons, hx, ih]

/-- C7 counterexample: two opportunities with the same score `1/2` but
`|edge| = 1/10` and `1/5` respectively, given in that order, are returned
in that same order by `rank_opportunities`: Python's `sorted` is stable
and consults only `opportunity_score`, so the larger-`|edge|` opportunity
does *not* come first.  The claimed |edge|/confidence tie-breaking is
therefore false. -/
theorem rank_tiebreak_counterexample :
    rankOpportunities [rankTieOppA, rankTieOppB] =
        [rankTieOppA, rankTieOppB] ∧
      rankTieOppA.opportunity_score = rankTieOppB.opportunity_score ∧
      |rankTieOppA.edge| < |rankTieOppB.edge| := by
  refine ⟨?_, by norm_num [rankTieOppA, rankTieOppB],
    by norm_num [rankTieOppA, rankTieOppB, ratAbsIte]⟩
  norm_num [rankOpportunities, rankTieOppA, rankTieOppB]

/-- C7 amended: `rank_opportunities` returns a permutation of its input
sorted in descending order of `opportunity_score`; opportunities with equal
scores keep their input order (stability: filtering the output at any given
score value gives exactly the input's entries with that score, in input
order).  Neither `|edge|` nor the confidence composite is consulted. -/
theorem rank_opportunities_sorted_stable (l : List Opportunity) :
    (rankOpportunities l).Perm l ∧
      (rankOpportunities l).Pairwise
        (fun a b => b.opportunity_score ≤ a.opportunity_score) ∧
      ∀ c : ℚ,
        (rankOpportunities l).filter (fun o => o.opportunity_score = c) =
          l.filter (fun o => o.opportunity_score = c) := by
  refine ⟨List.perm_insertionSort _ l, ?_, ?_⟩
  · haveI : IsTotal Opportunity
        (fun a b => b.opportunity_score ≤ a.opportunity_score) :=
      ⟨fun _ _ => le_total _ _⟩
    haveI : IsTrans Opportunity
        (fun a b => b.opportunity_score ≤ a.opportunity_score) :=
      ⟨fun _ _ _ hab hbc => le_trans hbc hab⟩
    exact List.sorted_insertionSort _ l
  · intro c
    induction l with
    | nil => rfl
    | cons y ys ih =>
      rw [show rankOpportunities (y :: ys) =
          (rankOpportunities ys).orderedInsert
            (fun a b => b.opportunity_score ≤ a.opportunity_score) y from
          rfl]
      rw [filter_orderedInsert_score]
      by_cases hy : y.opportunity_score = c <;>
        simp [List.filter_cons, hy, ih]
